import Mathlib

/-!
Shallow embedding of the speaker-recognition integration
(`custom_components/speaker_recognition/`): the voice-identity engine
(`recognition.py`), the conversation bridge (`conversation.py`), the
speech-to-text bridge (`stt.py`) and the main-entry setup (`__init__.py`).

Python floats are modelled as rationals, byte buffers of PCM16 audio as
lists of integers, the file system as an association list from path
strings to file contents, and the external resemblyzer functions
(`preprocess_wav`, `VoiceEncoder.embed_utterance`) as parameters that may
fail with a Python exception.
-/

unseal Rat.add Rat.sub Rat.mul Rat.inv Rat.ofScientific

/-- Python exception classes relevant to the embedded code. -/
inductive PyExc where
  | typeError
  | valueError
  | osError
  | attributeError
  | other
deriving DecidableEq

/-- Contents of a file on disk: a readable audio file (its decoded
waveform), a cached `.npy` embedding artifact, or an unreadable /
undecodable file on which `np.load` or `preprocess_wav` raises. -/
inductive FileData where
  | audio (waveform : List ℚ)
  | npyVec (v : List ℚ)
  | corrupt
deriving DecidableEq

/-- The file system: association list from path to contents. -/
abbrev FS := List (String × FileData)

/-- Path lookup (`Path.exists` plus reading the file). -/
def fsLookup : FS → String → Option FileData
  | [], _ => none
  | e :: rest, p => if e.1 = p then some e.2 else fsLookup rest p

/-- Writing a file (`np.save`): overwrite if present, else append. -/
def fsPut : FS → String → FileData → FS
  | [], p, d => [(p, d)]
  | e :: rest, p, d => if e.1 = p then (p, d) :: rest else e :: fsPut rest p d

/-- Python dict assignment `m[k] = v`: an existing key keeps its
insertion position, a new key is appended at the end. -/
def dictInsert (k : String) (v : α) : List (String × α) → List (String × α)
  | [] => [(k, v)]
  | e :: rest => if e.1 = k then (k, v) :: rest else e :: dictInsert k v rest

/-- String-prefix test over character lists (`str.startswith`). -/
def charsStartWith : List Char → List Char → Bool
  | _, [] => true
  | [], _ :: _ => false
  | x :: xs, y :: ys => x = y && charsStartWith xs ys

/-- On a reversed character list, split at the first occurrence of `c`
(i.e. the last occurrence in the original): returns the reversed suffix
after `c` and the reversed remainder before it. -/
def revSplitFirst (c : Char) : List Char → Option (List Char × List Char)
  | [] => none
  | x :: xs =>
      if x = c then some ([], xs)
      else (revSplitFirst c xs).map (fun q => (x :: q.1, q.2))

/-- `pathlib.PurePath(name).stem`: `name[:i]` when the index `i` of the
last dot satisfies `0 < i < len(name) - 1`, else `name` itself — so a
leading dot and a trailing dot both fail to count as an extension
separator (`PurePath(".hidden").stem` is `".hidden"`,
`PurePath("a.").stem` is `"a."`, `PurePath("a..mp3").stem` is `"a."`).
Here `q.1` is the reversed run after the last dot and `q.2` the reversed
run before it. -/
def stemChars (name : List Char) : List Char :=
  match revSplitFirst '.' name.reverse with
  | none => name
  | some q => if q.1.isEmpty || q.2.isEmpty then name else q.2.reverse

/-- Split a character list at every occurrence of `c`, keeping empty
segments. -/
def splitChar (c : Char) : List Char → List (List Char)
  | [] => [[]]
  | x :: xs =>
    match splitChar c xs with
    | [] => [[]]
    | h :: t => if x = c then [] :: h :: t else (x :: h) :: t

/-- A parsed `pathlib.PurePosixPath`: whether the path is anchored at the
root, and its components (empty and `.` segments are dropped, as pathlib
does; `..` segments are kept, as pathlib does). -/
structure PurePath where
  absolute : Bool
  parts : List (List Char)
deriving DecidableEq

/-- Parse a path string the way `pathlib.PurePosixPath` does. -/
def parsePath (p : String) : PurePath :=
  { absolute := charsStartWith p.data (['/'] : List Char),
    parts := (splitChar '/' p.data).filter
      (fun seg => !seg.isEmpty && seg != (['.'] : List Char)) }

/-- Render a parsed path back to its string (`str(PurePosixPath(...))`):
the empty relative path prints as `.`. -/
def pathStr (p : PurePath) : String :=
  if p.absolute then
    (⟨'/' :: List.intercalate (['/'] : List Char) p.parts⟩ : String)
  else if p.parts.isEmpty then "."
  else (⟨List.intercalate (['/'] : List Char) p.parts⟩ : String)

/-- `Path(base) / rel`: an absolute right operand replaces the base
entirely, otherwise the components are appended. -/
def pathJoin (base : PurePath) (rel : String) : PurePath :=
  if (parsePath rel).absolute then parsePath rel
  else { absolute := base.absolute, parts := base.parts ++ (parsePath rel).parts }

/-- `PurePath.name`: the final component, or empty when there is none. -/
def pathName (p : PurePath) : List Char := (p.parts.getLast?).getD []

/-- Derived cache-artifact path of a voice-sample file
(recognition.py line 88):
`full_path.parent / (full_path.stem + "_embedding.npy")` — the parent
drops the final component and the joined name is a single relative
component. -/
def embedding_path (full_path : String) : String :=
  pathStr
    { absolute := (parsePath full_path).absolute,
      parts := (parsePath full_path).parts.dropLast
        ++ [stemChars (pathName (parsePath full_path))
              ++ ("_embedding.npy").data] }

/-- The recognized locator scheme of a `media_content_id`
(recognition.py line 78). -/
def mediaSourceLocalMarker : String := "media-source://media_source/local/"

/-- Worker for [removeAll]: scan left to right; at a match of `pattern`
emit nothing and skip the rest of the pattern (the counter), then resume
scanning after it, exactly like `str.replace(pattern, "")` does with its
non-overlapping left-to-right matches. -/
def removeAllGo (pattern : List Char) : ℕ → List Char → List Char
  | _, [] => []
  | k + 1, _ :: xs => removeAllGo pattern k xs
  | 0, x :: xs =>
    if !pattern.isEmpty && charsStartWith (x :: xs) pattern then
      removeAllGo pattern (pattern.length - 1) xs
    else x :: removeAllGo pattern 0 xs

/-- Python `s.replace(pattern, "")`: delete every non-overlapping
occurrence of `pattern`, scanning left to right. -/
def removeAll (pattern s : List Char) : List Char :=
  removeAllGo pattern 0 s

/-- One configured voice sample: `{"user": ..., "samples":
{"media_content_id": ...}}`. -/
structure VoiceSample where
  user : String
  media_content_id : String
deriving DecidableEq

/-- Result of speaker recognition (recognition.py,
`SpeakerRecognitionResult`); `all_scores` keeps the mapping's insertion
order. -/
structure SpeakerRecognitionResult where
  user_id : String
  confidence : ℚ
  all_scores : List (String × ℚ)
deriving DecidableEq

/-- The mutable state of a `SpeakerRecognition` engine instance:
`voice_samples`, `_trained` and `_reference_embeddings` (in dict
insertion order). -/
structure SpeakerRecognition where
  voice_samples : List VoiceSample
  trained : Bool
  reference_embeddings : List (String × List ℚ)
deriving DecidableEq

/-- `SpeakerRecognition.__init__(hass, voice_samples)`
(recognition.py lines 31-42). -/
def SpeakerRecognition.init (voice_samples : List VoiceSample) : SpeakerRecognition :=
  { voice_samples := voice_samples, trained := false, reference_embeddings := [] }

/-- `SpeakerRecognition.update_voice_samples` (recognition.py lines
202-210): replace the sample list and clear `_trained`. -/
def update_voice_samples (e : SpeakerRecognition) (voice_samples : List VoiceSample) :
    SpeakerRecognition :=
  { e with voice_samples := voice_samples, trained := false }

/-- The external resemblyzer capabilities, each of which may raise:
`preprocess_wav(path)` on a file's audio content, `preprocess_wav(floats,
source_sr)` on an in-memory waveform, and
`VoiceEncoder.embed_utterance`. -/
structure Resemblyzer where
  preprocess_file : List ℚ → Except PyExc (List ℚ)
  preprocess_floats : List ℚ → ℚ → Except PyExc (List ℚ)
  embed_utterance : List ℚ → Except PyExc (List ℚ)

/-- Full audio path of a sample under the recognized locator scheme
(recognition.py lines 80-84):
`Path(media_dir) / media_id.replace("media-source://media_source/local/", "")`
— the replace deletes every occurrence of the marker, and the pathlib
join discards the base when the remainder is absolute. -/
def fpOf (media_dir : String) (s : VoiceSample) : String :=
  pathStr (pathJoin (parsePath media_dir)
    (⟨removeAll mediaSourceLocalMarker.data s.media_content_id.data⟩ : String))

/-- Derived embedding-cache path of a sample. -/
def epOf (media_dir : String) (s : VoiceSample) : String :=
  embedding_path (fpOf media_dir s)

/-- State threaded through the `_train_sync` loop: the file system, the
`_reference_embeddings` dict being built, and a ghost counter of
`embed_utterance` backend invocations. -/
structure TrainState where
  fs : FS
  refs : List (String × List ℚ)
  embedCalls : ℕ
deriving DecidableEq

/-- One iteration of the `_train_sync` loop over a voice sample
(recognition.py lines 70-122): unrecognized locators are skipped; a
loadable cached artifact is used without invoking the backend; otherwise
the embedding is computed from the audio file (skipping the sample if the
file is missing or unreadable, or if preprocessing or embedding raises)
and cached; any raise inside the `try` skips the sample. -/
def trainStep (media_dir : String) (enc : Resemblyzer) (st : TrainState)
    (sample : VoiceSample) : TrainState :=
  if charsStartWith sample.media_content_id.data mediaSourceLocalMarker.data then
    match fsLookup st.fs (epOf media_dir sample) with
    | some (FileData.npyVec v) => { st with refs := dictInsert sample.user v st.refs }
    | some _ => st
    | none =>
      match fsLookup st.fs (fpOf media_dir sample) with
      | some (FileData.audio wavData) =>
        match enc.preprocess_file wavData with
        | Except.error _ => st
        | Except.ok wav =>
          match enc.embed_utterance wav with
          | Except.error _ => { st with embedCalls := st.embedCalls + 1 }
          | Except.ok embedding =>
            { fs := fsPut st.fs (epOf media_dir sample) (FileData.npyVec embedding),
              refs := dictInsert sample.user embedding st.refs,
              embedCalls := st.embedCalls + 1 }
      | some _ => st
      | none => st
  else st

/-- The `_train_sync` loop over all configured samples. -/
def trainFold (media_dir : String) (enc : Resemblyzer) (st : TrainState)
    (samples : List VoiceSample) : TrainState :=
  samples.foldl (trainStep media_dir enc) st

/-- `SpeakerRecognition._train_sync` (recognition.py lines 61-131):
rebuild `_reference_embeddings` from scratch over the configured samples,
then set `_trained` iff the mapping is non-empty. Returns the updated
engine, the updated file system, and the number of backend invocations. -/
def _train_sync (media_dir : String) (enc : Resemblyzer) (e : SpeakerRecognition)
    (fs : FS) : SpeakerRecognition × FS × ℕ :=
  let st := trainFold media_dir enc { fs := fs, refs := [], embedCalls := 0 }
    e.voice_samples
  ({ e with reference_embeddings := st.refs, trained := !st.refs.isEmpty },
    st.fs, st.embedCalls)

/-- `SpeakerRecognition.async_train` (recognition.py lines 44-59): with
no configured samples it only clears `_trained` and returns; otherwise it
runs `_train_sync`. -/
def async_train (media_dir : String) (enc : Resemblyzer) (e : SpeakerRecognition)
    (fs : FS) : SpeakerRecognition × FS × ℕ :=
  if e.voice_samples.isEmpty then ({ e with trained := false }, fs, 0)
  else _train_sync media_dir enc e fs

/-- Dot product (`np.dot`) of two embedding vectors. -/
def dot : List ℚ → List ℚ → ℚ
  | x :: xs, y :: ys => x * y + dot xs ys
  | _, _ => 0

/-- The iteration of Python `max(scores, key=scores.get)`: keep the
current best, replacing it only on a strictly greater value. -/
def pythonMaxGo (best : String × ℚ) : List (String × ℚ) → String × ℚ
  | [] => best
  | y :: ys => pythonMaxGo (if y.2 > best.2 then y else best) ys

/-- Python `max(scores, key=scores.get)` over a (possibly empty)
association list. -/
def pythonMax : List (String × ℚ) → Option (String × ℚ)
  | [] => none
  | x :: xs => some (pythonMaxGo x xs)

/-- `SpeakerRecognition._recognize_sync` (recognition.py lines 159-200):
decode PCM16 to floats in `[-1, 1]`, preprocess, embed, score every
reference embedding by dot product in mapping order, and return the
best-scoring owner; any raise yields `None`. The second component counts
`embed_utterance` invocations. -/
def _recognize_sync (enc : Resemblyzer) (e : SpeakerRecognition)
    (audio_data : List ℤ) (sample_rate : ℚ) :
    Option SpeakerRecognitionResult × ℕ :=
  if audio_data.isEmpty then (none, 0)
  else
    match enc.preprocess_floats (audio_data.map (fun i => (i : ℚ) / 32768))
        sample_rate with
    | Except.error _ => (none, 0)
    | Except.ok wav =>
      match enc.embed_utterance wav with
      | Except.error _ => (none, 1)
      | Except.ok chunk_embed =>
        match pythonMax (e.reference_embeddings.map
            (fun p => (p.1, dot p.2 chunk_embed))) with
        | none => (none, 1)
        | some best =>
          (some { user_id := best.1, confidence := best.2,
                  all_scores := e.reference_embeddings.map
                    (fun p => (p.1, dot p.2 chunk_embed)) }, 1)

/-- `SpeakerRecognition.async_recognize` (recognition.py lines 133-157):
return `None` immediately when untrained or when no reference embeddings
exist, otherwise run `_recognize_sync`. -/
def async_recognize (enc : Resemblyzer) (e : SpeakerRecognition)
    (audio_data : List ℤ) (sample_rate : ℚ) :
    Option SpeakerRecognitionResult × ℕ :=
  if !e.trained then (none, 0)
  else if e.reference_embeddings.isEmpty then (none, 0)
  else _recognize_sync enc e audio_data sample_rate

/-- A Home Assistant `Context` (the fields used by conversation.py). -/
structure Context where
  user_id : Option String
  parent_id : Option String
  id : String
deriving DecidableEq

/-- A `ConversationInput` (the fields copied by conversation.py lines
247-256). -/
structure ConversationInput where
  text : String
  context : Context
  conversation_id : Option String
  device_id : Option String
  satellite_id : Option String
  language : String
  agent_id : Option String
  extra_system_prompt : Option String
deriving DecidableEq

/-- The single-slot `hass.data["speaker_recognition"]["last_result"]`
entry written by the STT bridge (stt.py lines 260-264). -/
structure SpeakerData where
  user_id : String
  confidence : ℚ
  timestamp : ℚ
deriving DecidableEq

/-- Outcome of `SpeakerRecognitionConversationEntity.async_process`:
either the error-typed result built when the wrapped agent is missing, or
the input forwarded to the wrapped agent. -/
inductive ConversationOutcome where
  | errorResult (errorCode : String) (message : String)
  | forwarded (forwardedInput : ConversationInput)
deriving DecidableEq

/-- The enrichment logic of `async_process` (conversation.py lines
203-264): with a last-result entry present, substitute the context's
user id with the recognized one when the confidence is at least the
threshold, the recognized user id is truthy (non-empty), the entry is
less than 5 seconds old, and the context's user id is absent or differs;
in every other case the input is left unchanged. -/
def enrich_user_input (now min_confidence : ℚ) (speaker_data : Option SpeakerData)
    (user_input : ConversationInput) : ConversationInput :=
  match speaker_data with
  | none => user_input
  | some sd =>
    if sd.confidence ≥ min_confidence ∧ sd.user_id ≠ "" then
      if now - sd.timestamp < 5 then
        if user_input.context.user_id = none ∨
            user_input.context.user_id ≠ some sd.user_id then
          { user_input with
            context := { user_id := some sd.user_id,
                         parent_id := user_input.context.parent_id,
                         id := user_input.context.id } }
        else user_input
      else user_input
    else user_input

/-- `SpeakerRecognitionConversationEntity.async_process` (conversation.py
lines 188-267): when the wrapped agent cannot be resolved, return an
error-typed result naming the missing entity; otherwise forward the
(possibly enriched) input to it. `source_agent_found` models whether
`conversation.async_get_agent` returned an agent. -/
def conversation_async_process (source_agent_found : Bool)
    (conversation_entity_id : String) (now min_confidence : ℚ)
    (speaker_data : Option SpeakerData) (user_input : ConversationInput) :
    ConversationOutcome :=
  if source_agent_found then
    ConversationOutcome.forwarded
      (enrich_user_input now min_confidence speaker_data user_input)
  else
    ConversationOutcome.errorResult ("FAILED_TO_HANDLE")
      ("Source conversation entity " ++ conversation_entity_id ++ " not found")

/-- State of a `SpeechResult` (homeassistant.components.stt). -/
inductive SpeechResultState where
  | success
  | error
deriving DecidableEq

/-- A `SpeechResult` returned by an STT entity. -/
structure SpeechResult where
  text : Option String
  state : SpeechResultState
deriving DecidableEq

/-- Exception classes caught by the
`except (OSError, ValueError, TypeError)` clause of
`async_process_audio_stream` (stt.py line 267). -/
def caughtBySTT : PyExc → Bool
  | PyExc.osError => true
  | PyExc.valueError => true
  | PyExc.typeError => true
  | _ => false

/-- Observable outcome of one `async_process_audio_stream` run: either an
uncaught exception escapes the coroutine (the transcription result is
lost), or a result is returned together with the possibly-updated
last-result slot. -/
inductive STTOutcome where
  | raised (exc : PyExc)
  | returned (result : SpeechResult) (last_result : Option SpeakerData)
deriving DecidableEq

/-- `SpeakerRecognitionSTTEntity.async_process_audio_stream` (stt.py
lines 199-270): with no resolvable wrapped entity, return an error
result; otherwise buffer the chunks while forwarding them, obtain the
wrapped entity's transcription result, run recognition on the buffered
audio when non-empty, publish a successful recognition to the shared
last-result slot stamped with the current loop time, and return the
transcription result. `source_entity` is `none` when the wrapped STT
entity cannot be resolved, else `some` of its transcription result for
this stream. `recognition_attr` models the evaluation of
`self.recognition` inside the `try` block: reading
`self._main_entry.runtime_data` (stt.py line 167) yields the engine or
raises — notably `AttributeError` whenever `runtime_data` was never
assigned, which per C2 is every run of `async_setup_main_entry`. The
`except` clause catches only `OSError`, `ValueError` and `TypeError`;
any other exception escapes and the transcription result is lost. -/
def async_process_audio_stream (enc : Resemblyzer)
    (source_entity : Option SpeechResult)
    (recognition_attr : Except PyExc SpeakerRecognition)
    (chunks : List (List ℤ)) (sample_rate : ℚ) (now : ℚ)
    (last_result : Option SpeakerData) : STTOutcome :=
  match source_entity with
  | none =>
    STTOutcome.returned { text := none, state := SpeechResultState.error }
      last_result
  | some result =>
    let audio_buffer := chunks.flatten
    if audio_buffer.isEmpty then STTOutcome.returned result last_result
    else
      match recognition_attr with
      | Except.error exc =>
        if caughtBySTT exc then STTOutcome.returned result last_result
        else STTOutcome.raised exc
      | Except.ok e =>
        match (async_recognize enc e audio_buffer sample_rate).1 with
        | some r =>
          STTOutcome.returned result
            (some { user_id := r.user_id, confidence := r.confidence,
                    timestamp := now })
        | none => STTOutcome.returned result last_result

/-- Number of arguments `SpeakerRecognition.__init__` accepts after
`self`: `(self, hass, voice_samples)` (recognition.py line 31). -/
def SpeakerRecognition_init_arity : ℕ := 2

/-- Number of arguments passed at the construction site
`SpeakerRecognition(hass, voice_samples, backend_url)`
(`__init__.py` line 49). -/
def main_entry_ctor_argc : ℕ := 3

/-- Python call semantics: a call with the wrong number of positional
arguments raises `TypeError` before the constructor body runs. -/
def pythonConstruct (arity argc : ℕ) (body : SpeakerRecognition) :
    Except PyExc SpeakerRecognition :=
  if argc = arity then Except.ok body else Except.error PyExc.typeError

/-- Observable outcome of one run of `async_setup_main_entry`: the
exception escaping it (if any), whether `entry.runtime_data` was
assigned, how many times training ran, and the resulting file system. -/
structure MainSetupRun where
  exc : Option PyExc
  runtime_data_assigned : Bool
  train_invocations : ℕ
  fs : FS
deriving DecidableEq

/-- `async_setup_main_entry` (`__init__.py` lines 42-57): construct the
engine, train when samples are configured, then assign
`entry.runtime_data`; an exception raised by the construction escapes
before any of that happens. -/
def async_setup_main_entry (media_dir : String) (enc : Resemblyzer)
    (voice_samples : List VoiceSample) (fs : FS) : MainSetupRun :=
  match pythonConstruct SpeakerRecognition_init_arity main_entry_ctor_argc
      (SpeakerRecognition.init voice_samples) with
  | Except.error exc =>
    { exc := some exc, runtime_data_assigned := false, train_invocations := 0,
      fs := fs }
  | Except.ok recognition =>
    if voice_samples.isEmpty then
      { exc := none, runtime_data_assigned := true, train_invocations := 0,
        fs := fs }
    else
      { exc := none, runtime_data_assigned := true, train_invocations := 1,
        fs := (async_train media_dir enc recognition fs).2.1 }

/-- First entry of an association list carrying a given value (used to
state the tie-break property: the first owner at the maximal score). -/
def firstWithVal (v : ℚ) : List (String × ℚ) → Option (String × ℚ)
  | [] => none
  | p :: rest => if p.2 = v then some p else firstWithVal v rest

/-- A resemblyzer stub whose operations succeed and return their input
unchanged (used for concrete witnesses). -/
def encId : Resemblyzer :=
  { preprocess_file := Except.ok,
    preprocess_floats := fun w _ => Except.ok w,
    embed_utterance := Except.ok }

/-- A conversation input whose context carries no user id. -/
def uiNoUser : ConversationInput :=
  { text := "turn on the lights",
    context := { user_id := none, parent_id := none, id := "ctx-1" },
    conversation_id := none, device_id := none, satellite_id := none,
    language := "en", agent_id := none, extra_system_prompt := none }

/-- A conversation input whose context already carries the user id
recognized for alice. -/
def uiAlice : ConversationInput :=
  { uiNoUser with
    context := { user_id := some ("alice"), parent_id := none, id := "ctx-1" } }

theorem pythonMaxGo_ge (best : String × ℚ) (l : List (String × ℚ)) :
    best.2 ≤ (pythonMaxGo best l).2 := by
  induction l generalizing best with
  | nil => exact le_refl _
  | cons y ys ih =>
    simp only [pythonMaxGo]
    refine le_trans ?_ (ih (if y.2 > best.2 then y else best))
    by_cases h : y.2 > best.2
    · rw [if_pos h]; exact le_of_lt h
    · rw [if_neg h]

theorem pythonMaxGo_ge_all (best : String × ℚ) (l : List (String × ℚ)) :
    ∀ p ∈ l, p.2 ≤ (pythonMaxGo best l).2 := by
  induction l generalizing best with
  | nil => intro p hp; exact absurd hp (List.not_mem_nil p)
  | cons y ys ih =>
    intro p hp
    simp only [pythonMaxGo]
    rcases List.mem_cons.mp hp with rfl | hmem
    · refine le_trans ?_ (pythonMaxGo_ge (if p.2 > best.2 then p else best) ys)
      by_cases h : p.2 > best.2
      · rw [if_pos h]
      · rw [if_neg h]; exact le_of_not_lt h
    · exact ih (if y.2 > best.2 then y else best) p hmem

theorem pythonMaxGo_of_le (best : String × ℚ) (l : List (String × ℚ))
    (h : (pythonMaxGo best l).2 ≤ best.2) : pythonMaxGo best l = best := by
  induction l generalizing best with
  | nil => rfl
  | cons y ys ih =>
    simp only [pythonMaxGo] at h ⊢
    by_cases hy : y.2 > best.2
    · rw [if_pos hy] at h ⊢
      exact absurd (lt_of_lt_of_le hy (pythonMaxGo_ge y ys)) (not_lt.mpr h)
    · rw [if_neg hy] at h ⊢
      exact ih best h

theorem pythonMaxGo_firstWithVal (best : String × ℚ) (l : List (String × ℚ)) :
    firstWithVal (pythonMaxGo best l).2 (best :: l) = some (pythonMaxGo best l) := by
  induction l generalizing best with
  | nil => simp [pythonMaxGo, firstWithVal]
  | cons y ys ih =>
    simp only [pythonMaxGo]
    by_cases h : y.2 > best.2
    · rw [if_pos h]
      have hlt : best.2 < (pythonMaxGo y ys).2 :=
        lt_of_lt_of_le h (pythonMaxGo_ge y ys)
      simp only [firstWithVal, if_neg (ne_of_lt hlt)]
      exact ih y
    · rw [if_neg h]
      by_cases hb : best.2 = (pythonMaxGo best ys).2
      · have : pythonMaxGo best ys = best :=
          pythonMaxGo_of_le best ys (le_of_eq hb.symm)
        rw [this] at hb ⊢
        simp [firstWithVal]
      · have hlt : best.2 < (pythonMaxGo best ys).2 :=
          lt_of_le_of_ne (pythonMaxGo_ge best ys) hb
        have hylt : y.2 ≠ (pythonMaxGo best ys).2 :=
          ne_of_lt (lt_of_le_of_lt (le_of_not_lt h) hlt)
        have ihb := ih best
        simp only [firstWithVal, if_neg hb] at ihb
        simp only [firstWithVal, if_neg hb, if_neg hylt]
        exact ihb

theorem pythonMax_spec (l : List (String × ℚ)) (m : String × ℚ)
    (h : pythonMax l = some m) :
    (∀ p ∈ l, p.2 ≤ m.2) ∧ firstWithVal m.2 l = some m := by
  cases l with
  | nil => exact absurd h (by simp [pythonMax])
  | cons x xs =>
    simp only [pythonMax, Option.some.injEq] at h
    subst h
    refine ⟨?_, pythonMaxGo_firstWithVal x xs⟩
    intro p hp
    rcases List.mem_cons.mp hp with rfl | hmem
    · exact pythonMaxGo_ge p xs
    · exact pythonMaxGo_ge_all x xs p hmem

/-- C1 counterexample: a last-result entry with an empty owner id,
confidence 1 ≥ minConfidence 0, age 0 < 5, and a request with no acting
user satisfies the claim's substitution condition, yet the code forwards
the request unmodified, because conversation.py line 218 additionally
requires `recognized_user_id` to be truthy. -/
theorem claim_C1_counterexample :
    ((0 : ℚ) - (0 : ℚ) < 5 ∧ (1 : ℚ) ≥ 0 ∧ uiNoUser.context.user_id = none)
    ∧ enrich_user_input 0 0
        (some { user_id := "", confidence := 1, timestamp := 0 }) uiNoUser
      = uiNoUser := by
  decide

/-- C1 (amended): with no last-result entry the request is forwarded
unmodified; with an entry, the forwarded request differs from the
original exactly when the entry's owner id is non-empty, its confidence
is at least the threshold, its age is strictly below 5, and the request's
acting user id is absent or differs from the owner id; and whenever it
differs, its context's user id is the entry's owner id. -/
theorem claim_C1 (now min_confidence : ℚ) (sd : SpeakerData)
    (ui : ConversationInput) :
    enrich_user_input now min_confidence none ui = ui
    ∧ (enrich_user_input now min_confidence (some sd) ui ≠ ui ↔
        (sd.user_id ≠ "" ∧ sd.confidence ≥ min_confidence
          ∧ now - sd.timestamp < 5
          ∧ (ui.context.user_id = none ∨ ui.context.user_id ≠ some sd.user_id)))
    ∧ (enrich_user_input now min_confidence (some sd) ui ≠ ui →
        (enrich_user_input now min_confidence (some sd) ui).context.user_id
          = some sd.user_id) := by
  refine ⟨rfl, ?_, ?_⟩
  · simp only [enrich_user_input]
    split_ifs with h1 h2 h3
    · have hx : ui.context.user_id ≠ some sd.user_id := by
        rcases h3 with h | h
        · rw [h]; exact fun hc => Option.noConfusion hc
        · exact h
      refine iff_of_true (fun heq => hx ?_) ⟨h1.2, h1.1, h2, h3⟩
      rw [← heq]
    · exact iff_of_false (fun hne => hne rfl) (fun hc => h3 hc.2.2.2)
    · exact iff_of_false (fun hne => hne rfl) (fun hc => h2 hc.2.2.1)
    · exact iff_of_false (fun hne => hne rfl) (fun hc => h1 ⟨hc.2.1, hc.1⟩)
  · simp only [enrich_user_input]
    split_ifs with h1 h2 h3
    · intro _; rfl
    all_goals exact fun hne => absurd rfl hne

/-- C1 witness: a fresh, confident entry for alice substitutes the acting
user of a request that carried none. -/
theorem claim_C1_witness :
    (enrich_user_input 0 (7 / 10)
        (some { user_id := "alice", confidence := 9 / 10, timestamp := 0 })
        uiNoUser).context.user_id = some ("alice") :=
  (claim_C1 0 (7 / 10)
      { user_id := "alice", confidence := 9 / 10, timestamp := 0 } uiNoUser).2.2
    (by decide)

/-- C2: `async_setup_main_entry` passes three arguments to the two-argument
`SpeakerRecognition.__init__`, so every run raises `TypeError` with no
training performed, no `runtime_data` assigned, and the file system
untouched. -/
theorem claim_C2 (media_dir : String) (enc : Resemblyzer)
    (voice_samples : List VoiceSample) (fs : FS) :
    async_setup_main_entry media_dir enc voice_samples fs
      = { exc := some PyExc.typeError, runtime_data_assigned := false,
          train_invocations := 0, fs := fs } := rfl

/-- C3 counterexample: with a resolvable wrapped STT entity and a
non-empty stream, the in-try `self.recognition` access raises
`AttributeError` (per C2, `runtime_data` is never assigned), which the
`except (OSError, ValueError, TypeError)` clause does not catch: the
exception escapes and the wrapped backend's transcription result is not
returned, refuting the claim's "caught ... and the transcription result
is returned regardless". -/
theorem claim_C3_counterexample :
    async_process_audio_stream encId
        (some { text := some ("hello"), state := SpeechResultState.success })
        (Except.error PyExc.attributeError) [[1]] 16000 0 none
      = STTOutcome.raised PyExc.attributeError := by decide

/-- C3 (amended): with a resolvable wrapped STT entity, an error raised
during the speaker-recognition step after the stream ends is caught and
logged only when it is an `OSError`, `ValueError` or `TypeError`; in that
case — and whenever the engine attribute resolves, so that recognition
succeeds, returns no result, or fails internally (every resemblyzer
behaviour, including raising preprocessing or embedding) — the wrapped
backend's transcription result is returned unchanged; an exception of any
other class raised by the recognition step escapes the handler and the
transcription result is lost. -/
theorem claim_C3 (enc : Resemblyzer) (source_result : SpeechResult)
    (recognition_attr : Except PyExc SpeakerRecognition)
    (chunks : List (List ℤ)) (sample_rate now : ℚ)
    (last_result : Option SpeakerData) :
    ((∀ exc, recognition_attr = Except.error exc → caughtBySTT exc = true) →
      ∃ l, async_process_audio_stream enc (some source_result) recognition_attr
          chunks sample_rate now last_result
        = STTOutcome.returned source_result l)
    ∧ (∀ exc, recognition_attr = Except.error exc → caughtBySTT exc = false →
        chunks.flatten ≠ [] →
        async_process_audio_stream enc (some source_result) recognition_attr
          chunks sample_rate now last_result = STTOutcome.raised exc) := by
  constructor
  · intro hc
    by_cases hb : chunks.flatten.isEmpty
    · exact ⟨last_result, by simp [async_process_audio_stream, hb]⟩
    · cases hr : recognition_attr with
      | error exc =>
        exact ⟨last_result,
          by simp [async_process_audio_stream, hb, hr, hc exc hr]⟩
      | ok e =>
        cases hrec : (async_recognize enc e chunks.flatten sample_rate).1 with
        | some r =>
          refine ⟨some { user_id := r.user_id, confidence := r.confidence, timestamp := now }, ?_⟩
          simp [async_process_audio_stream, hb, hr, hrec]
        | none =>
          exact ⟨last_result,
            by simp [async_process_audio_stream, hb, hr, hrec]⟩
  · intro exc hr hcaught hne
    rcases hxe : chunks.flatten with _ | ⟨y, ys⟩
    · exact absurd hxe hne
    · simp [async_process_audio_stream, hxe, hr, hcaught]

/-- C3 witness: when the engine attribute resolves, the wrapped
transcription result is returned whatever recognition does. -/
theorem claim_C3_witness :
    ∃ l, async_process_audio_stream encId
        (some { text := some ("hello"), state := SpeechResultState.success })
        (Except.ok (SpeakerRecognition.init [])) [[1]] 16000 0 none
      = STTOutcome.returned
          { text := some ("hello"), state := SpeechResultState.success } l :=
  (claim_C3 encId { text := some ("hello"), state := SpeechResultState.success }
      (Except.ok (SpeakerRecognition.init [])) [[1]] 16000 0 none).1
    (fun _ h => Except.noConfusion h)

/-- C4: whenever `async_recognize` returns a result, the score map lists
the owners in the reference mapping's insertion order, the returned
confidence bounds every score, and the returned owner is exactly the
first entry of the score map attaining that maximal score (deterministic
tie-break by insertion order). -/
theorem claim_C4 (enc : Resemblyzer) (e : SpeakerRecognition)
    (audio_data : List ℤ) (sample_rate : ℚ) (r : SpeakerRecognitionResult)
    (n : ℕ)
    (h : async_recognize enc e audio_data sample_rate = (some r, n)) :
    r.all_scores.map Prod.fst = e.reference_embeddings.map Prod.fst
    ∧ (∀ p ∈ r.all_scores, p.2 ≤ r.confidence)
    ∧ firstWithVal r.confidence r.all_scores = some (r.user_id, r.confidence) := by
  simp only [async_recognize] at h
  by_cases ht : !e.trained
  · rw [if_pos ht] at h; exact absurd h (by simp)
  · rw [if_neg ht] at h
    by_cases hemp : e.reference_embeddings.isEmpty
    · rw [if_pos hemp] at h; exact absurd h (by simp)
    · rw [if_neg hemp] at h
      simp only [_recognize_sync] at h
      by_cases haud : audio_data.isEmpty
      · rw [if_pos haud] at h; exact absurd h (by simp)
      · rw [if_neg haud] at h
        cases hpre : enc.preprocess_floats
            (audio_data.map fun i => (i : ℚ) / 32768) sample_rate with
        | error err => simp only [hpre] at h; exact absurd h (by simp)
        | ok wav =>
          simp only [hpre] at h
          cases hemb : enc.embed_utterance wav with
          | error err => simp only [hemb] at h; exact absurd h (by simp)
          | ok chunk_embed =>
            simp only [hemb] at h
            cases hmax : pythonMax (e.reference_embeddings.map
                fun p => (p.1, dot p.2 chunk_embed)) with
            | none => simp only [hmax] at h; exact absurd h (by simp)
            | some best =>
              simp only [hmax, Prod.mk.injEq, Option.some.injEq] at h
              obtain ⟨hr, -⟩ := h
              subst hr
              refine ⟨by simp, ?_, ?_⟩
              · exact (pythonMax_spec _ best hmax).1
              · exact (pythonMax_spec _ best hmax).2

/-- C4 witness: two owners enrolled with identical reference vectors tie
at the maximal score and the first-inserted owner is returned. -/
theorem claim_C4_witness :
    firstWithVal ((1 : ℚ) / 32768)
        [("u1", (1 : ℚ) / 32768), ("u2", (1 : ℚ) / 32768)]
      = some ("u1", (1 : ℚ) / 32768) := by
  have h := claim_C4 encId
    { voice_samples := [], trained := true,
      reference_embeddings := [("u1", [1]), ("u2", [1])] }
    [1] 16000
    { user_id := "u1", confidence := 1 / 32768,
      all_scores := [("u1", 1 / 32768), ("u2", 1 / 32768)] } 1 (by decide)
  exact h.2.2

/-- C5: a freshly constructed engine is untrained, `update_voice_samples`
forces the engine back to untrained, and every `recognize` call on an
untrained engine returns `None` with zero embedding-backend
invocations. -/
theorem claim_C5 (enc : Resemblyzer) (e : SpeakerRecognition)
    (audio_data : List ℤ) (sample_rate : ℚ) (samples : List VoiceSample)
    (e2 : SpeakerRecognition) (samples2 : List VoiceSample)
    (h : e.trained = false) :
    async_recognize enc e audio_data sample_rate = (none, 0)
    ∧ (SpeakerRecognition.init samples).trained = false
    ∧ (update_voice_samples e2 samples2).trained = false := by
  refine ⟨?_, rfl, rfl⟩
  simp [async_recognize, h]

/-- C5 witness: an untrained engine holding stale reference embeddings
still answers `None` without invoking the backend. -/
theorem claim_C5_witness :
    async_recognize encId
        { voice_samples := [], trained := false,
          reference_embeddings := [("u", [1])] } [1] 16000 = (none, 0)
    ∧ (SpeakerRecognition.init []).trained = false
    ∧ (update_voice_samples
        { voice_samples := [], trained := true, reference_embeddings := [] }
        []).trained = false :=
  claim_C5 encId
    { voice_samples := [], trained := false, reference_embeddings := [("u", [1])] }
    [1] 16000 []
    { voice_samples := [], trained := true, reference_embeddings := [] } [] rfl

/-- C9: when the request's acting user already equals the entry's owner
id, the request object is forwarded unmodified; and in every case the
forwarded request preserves text, conversation id, device id, satellite
id, language, agent id, extra system prompt, and the context's id and
parent id, with the context's user id either untouched or set to the
entry's owner id. -/
theorem claim_C9 (now min_confidence : ℚ) (sd : SpeakerData)
    (ui : ConversationInput) :
    (ui.context.user_id = some sd.user_id →
      enrich_user_input now min_confidence (some sd) ui = ui)
    ∧ ((enrich_user_input now min_confidence (some sd) ui).text = ui.text
      ∧ (enrich_user_input now min_confidence (some sd) ui).conversation_id
          = ui.conversation_id
      ∧ (enrich_user_input now min_confidence (some sd) ui).device_id
          = ui.device_id
      ∧ (enrich_user_input now min_confidence (some sd) ui).satellite_id
          = ui.satellite_id
      ∧ (enrich_user_input now min_confidence (some sd) ui).language
          = ui.language
      ∧ (enrich_user_input now min_confidence (some sd) ui).agent_id
          = ui.agent_id
      ∧ (enrich_user_input now min_confidence (some sd) ui).extra_system_prompt
          = ui.extra_system_prompt
      ∧ (enrich_user_input now min_confidence (some sd) ui).context.id
          = ui.context.id
      ∧ (enrich_user_input now min_confidence (some sd) ui).context.parent_id
          = ui.context.parent_id
      ∧ ((enrich_user_input now min_confidence (some sd) ui).context.user_id
            = ui.context.user_id
          ∨ (enrich_user_input now min_confidence (some sd) ui).context.user_id
            = some sd.user_id)) := by
  constructor
  · intro h
    simp only [enrich_user_input]
    split_ifs with h1 h2 h3
    · exact absurd h3 (by simp [h])
    all_goals rfl
  · simp only [enrich_user_input]
    split_ifs with h1 h2 h3
    · exact ⟨rfl, rfl, rfl, rfl, rfl, rfl, rfl, rfl, rfl, Or.inr rfl⟩
    all_goals exact ⟨rfl, rfl, rfl, rfl, rfl, rfl, rfl, rfl, rfl, Or.inl rfl⟩

/-- C9 witness: a request already acting as alice passes through
unmodified past a fresh, confident alice entry. -/
theorem claim_C9_witness :
    enrich_user_input 0 (7 / 10)
        (some { user_id := "alice", confidence := 9 / 10, timestamp := 0 })
        uiAlice = uiAlice :=
  (claim_C9 0 (7 / 10)
      { user_id := "alice", confidence := 9 / 10, timestamp := 0 } uiAlice).1
    rfl

/-- C10: with an unresolvable wrapped conversational agent,
`async_process` returns (rather than raises) an error-typed result whose
message names the missing entity. -/
theorem claim_C10 (conversation_entity_id : String) (now min_confidence : ℚ)
    (speaker_data : Option SpeakerData) (user_input : ConversationInput) :
    conversation_async_process false conversation_entity_id now min_confidence
        speaker_data user_input
      = ConversationOutcome.errorResult ("FAILED_TO_HANDLE")
          ("Source conversation entity " ++ conversation_entity_id
            ++ " not found") := rfl

/-- Voice sample for alice with a recognized locator. -/
def sampleAlice : VoiceSample :=
  { user := "alice", media_content_id := mediaSourceLocalMarker ++ "alice.wav" }

/-- Voice sample for bob with a recognized locator. -/
def sampleBob : VoiceSample :=
  { user := "bob", media_content_id := mediaSourceLocalMarker ++ "bob.wav" }

/-- Voice sample for carol with a recognized locator whose file is
missing. -/
def sampleCarol : VoiceSample :=
  { user := "carol", media_content_id := mediaSourceLocalMarker ++ "carol.wav" }

/-- Engine configured with the three samples of the partial-enrollment
scenario. -/
def engineP3 : SpeakerRecognition :=
  SpeakerRecognition.init [sampleAlice, sampleBob, sampleCarol]

/-- File system for the partial-enrollment scenario: alice's and bob's
audio files exist, carol's does not, and no cache artifacts exist. -/
def fsP3 : FS :=
  [("/config/media/alice.wav", FileData.audio [1]),
   ("/config/media/bob.wav", FileData.audio [2])]

theorem fsLookup_fsPut (fs : FS) (q : String) (d : FileData) (p : String) :
    fsLookup (fsPut fs q d) p = if q = p then some d else fsLookup fs p := by
  induction fs with
  | nil => simp [fsPut, fsLookup]
  | cons e rest ih =>
    by_cases he : e.1 = q
    · by_cases hqp : q = p
      · subst hqp
        simp [fsPut, fsLookup, he]
      · simp [fsPut, fsLookup, he, hqp]
    · by_cases hqp : q = p
      · subst hqp
        simp [fsPut, fsLookup, he, ih]
      · simp [fsPut, fsLookup, he, hqp, ih]

theorem trainStep_fs_untouched (media_dir : String) (enc : Resemblyzer)
    (st : TrainState) (s : VoiceSample) (p : String)
    (hp : p ≠ epOf media_dir s) :
    fsLookup (trainStep media_dir enc st s).fs p = fsLookup st.fs p := by
  simp only [trainStep]
  split
  · split
    · rfl
    · rfl
    · split
      · split
        · rfl
        · split
          · rfl
          · rw [fsLookup_fsPut, if_neg (fun h => hp h.symm)]
      · rfl
      · rfl
  · rfl

theorem trainFold_fs_untouched (media_dir : String) (enc : Resemblyzer) :
    ∀ (samples : List VoiceSample) (st : TrainState) (p : String),
      (∀ s ∈ samples, p ≠ epOf media_dir s) →
      fsLookup (trainFold media_dir enc st samples).fs p = fsLookup st.fs p := by
  intro samples
  induction samples with
  | nil => intro st p _; rfl
  | cons s rest ih =>
    intro st p hp
    exact (ih (trainStep media_dir enc st s) p
        (fun x hx => hp x (List.mem_cons_of_mem s hx))).trans
      (trainStep_fs_untouched media_dir enc st s p (hp s (List.mem_cons_self s rest)))

/-- C6: an unrecognized locator, and a recognized one with no cache
artifact and a missing or unreadable source file, are skipped (the loop
state is unchanged and the remaining samples are processed); after
`_train_sync` the engine is trained iff the rebuilt reference mapping is
non-empty; and the concrete partial-enrollment scenario (3 samples, 1
with a missing file) yields a trained engine with exactly 2 reference
embeddings, one per distinct owner. -/
theorem claim_C6 :
    (∀ (media_dir : String) (enc : Resemblyzer) (st : TrainState)
        (s : VoiceSample),
      charsStartWith s.media_content_id.data mediaSourceLocalMarker.data = false →
      trainStep media_dir enc st s = st)
    ∧ (∀ (media_dir : String) (enc : Resemblyzer) (st : TrainState)
        (s : VoiceSample),
      charsStartWith s.media_content_id.data mediaSourceLocalMarker.data = true →
      fsLookup st.fs (epOf media_dir s) = none →
      (fsLookup st.fs (fpOf media_dir s) = none
        ∨ fsLookup st.fs (fpOf media_dir s) = some FileData.corrupt) →
      trainStep media_dir enc st s = st)
    ∧ (∀ (media_dir : String) (enc : Resemblyzer) (e : SpeakerRecognition)
        (fs : FS),
      (_train_sync media_dir enc e fs).1.trained
        = !((_train_sync media_dir enc e fs).1.reference_embeddings.isEmpty))
    ∧ ((_train_sync ("/config/media") encId engineP3 fsP3).1.trained = true
      ∧ (_train_sync ("/config/media") encId engineP3
          fsP3).1.reference_embeddings.length = 2
      ∧ (_train_sync ("/config/media") encId engineP3
          fsP3).1.reference_embeddings.map Prod.fst = ["alice", "bob"]) := by
  refine ⟨?_, ?_, ?_, by decide⟩
  · intro media_dir enc st s h
    simp [trainStep, h]
  · intro media_dir enc st s h1 h2 h3
    rcases h3 with h3 | h3 <;> simp [trainStep, h1, h2, h3]
  · intro media_dir enc e fs
    rfl

/-- C6 witness: a sample with an unrecognized locator leaves the training
state untouched. -/
theorem claim_C6_witness :
    trainStep ("/config/media") encId { fs := fsP3, refs := [], embedCalls := 0 }
        { user := "dave", media_content_id := "http://example.com/dave.wav" }
      = { fs := fsP3, refs := [], embedCalls := 0 } :=
  claim_C6.1 ("/config/media") encId
    { fs := fsP3, refs := [], embedCalls := 0 }
    { user := "dave", media_content_id := "http://example.com/dave.wav" }
    (by decide)

theorem trainStep_replay (media_dir : String) (enc : Resemblyzer)
    (st : TrainState) (s : VoiceSample) (big : FS) (n2 : ℕ)
    (hfp : fsLookup big (fpOf media_dir s) = fsLookup st.fs (fpOf media_dir s))
    (hep : fsLookup big (epOf media_dir s)
      = fsLookup (trainStep media_dir enc st s).fs (epOf media_dir s)) :
    ∃ k, trainStep media_dir enc
        { fs := big, refs := st.refs, embedCalls := n2 } s
      = { fs := big, refs := (trainStep media_dir enc st s).refs,
          embedCalls := k } := by
  by_cases hm : charsStartWith s.media_content_id.data mediaSourceLocalMarker.data
  case neg =>
    refine ⟨n2, ?_⟩
    simp only [trainStep, hm]
    simp
  case pos =>
    cases hct : fsLookup st.fs (epOf media_dir s) with
    | some d =>
      cases d with
      | npyVec v =>
        have hstep : trainStep media_dir enc st s
            = { st with refs := dictInsert s.user v st.refs } := by
          simp [trainStep, hm, hct]
        rw [hstep] at hep
        simp only at hep
        rw [hct] at hep
        refine ⟨n2, ?_⟩
        rw [hstep]
        simp only [trainStep, hm, if_true]
        simp only [hep, hct]
      | audio w =>
        have hstep : trainStep media_dir enc st s = st := by
          simp [trainStep, hm, hct]
        rw [hstep] at hep
        rw [hct] at hep
        refine ⟨n2, ?_⟩
        rw [hstep]
        simp only [trainStep, hm, if_true]
        simp only [hep]
      | corrupt =>
        have hstep : trainStep media_dir enc st s = st := by
          simp [trainStep, hm, hct]
        rw [hstep] at hep
        rw [hct] at hep
        refine ⟨n2, ?_⟩
        rw [hstep]
        simp only [trainStep, hm, if_true]
        simp only [hep]
    | none =>
      cases hft : fsLookup st.fs (fpOf media_dir s) with
      | none =>
        have hstep : trainStep media_dir enc st s = st := by
          simp [trainStep, hm, hct, hft]
        rw [hstep] at hep
        rw [hct] at hep
        rw [hft] at hfp
        refine ⟨n2, ?_⟩
        rw [hstep]
        simp only [trainStep, hm, if_true]
        simp only [hep, hfp]
      | some fd =>
        cases fd with
        | npyVec v =>
          have hstep : trainStep media_dir enc st s = st := by
            simp [trainStep, hm, hct, hft]
          rw [hstep] at hep
          rw [hct] at hep
          rw [hft] at hfp
          refine ⟨n2, ?_⟩
          rw [hstep]
          simp only [trainStep, hm, if_true]
          simp only [hep, hfp]
        | corrupt =>
          have hstep : trainStep media_dir enc st s = st := by
            simp [trainStep, hm, hct, hft]
          rw [hstep] at hep
          rw [hct] at hep
          rw [hft] at hfp
          refine ⟨n2, ?_⟩
          rw [hstep]
          simp only [trainStep, hm, if_true]
          simp only [hep, hfp]
        | audio w =>
          cases hpre : enc.preprocess_file w with
          | error ex =>
            have hstep : trainStep media_dir enc st s = st := by
              simp [trainStep, hm, hct, hft, hpre]
            rw [hstep] at hep
            rw [hct] at hep
            rw [hft] at hfp
            refine ⟨n2, ?_⟩
            rw [hstep]
            simp only [trainStep, hm, if_true]
            simp only [hep, hfp, hpre]
          | ok wav =>
            cases hemb : enc.embed_utterance wav with
            | error ex =>
              have hstep : trainStep media_dir enc st s
                  = { st with embedCalls := st.embedCalls + 1 } := by
                simp [trainStep, hm, hct, hft, hpre, hemb]
              rw [hstep] at hep
              simp only at hep
              rw [hct] at hep
              rw [hft] at hfp
              refine ⟨n2 + 1, ?_⟩
              rw [hstep]
              simp only [trainStep, hm, if_true]
              simp only [hep, hfp, hpre, hemb]
            | ok emb =>
              have hstep : trainStep media_dir enc st s
                  = { fs := fsPut st.fs (epOf media_dir s) (FileData.npyVec emb),
                      refs := dictInsert s.user emb st.refs,
                      embedCalls := st.embedCalls + 1 } := by
                simp [trainStep, hm, hct, hft, hpre, hemb]
              rw [hstep] at hep
              simp only at hep
              rw [fsLookup_fsPut, if_pos rfl] at hep
              refine ⟨n2, ?_⟩
              rw [hstep]
              simp only [trainStep, hm, if_true]
              simp only [hep]

theorem trainFold_replay (media_dir : String) (enc : Resemblyzer) :
    ∀ (samples : List VoiceSample) (st : TrainState) (n2 : ℕ),
      samples.Pairwise (fun a b => epOf media_dir a ≠ epOf media_dir b) →
      (∀ a ∈ samples, ∀ c ∈ samples, epOf media_dir a ≠ fpOf media_dir c) →
      ∃ k, trainFold media_dir enc
          { fs := (trainFold media_dir enc st samples).fs, refs := st.refs,
            embedCalls := n2 } samples
        = { fs := (trainFold media_dir enc st samples).fs,
            refs := (trainFold media_dir enc st samples).refs,
            embedCalls := k } := by
  intro samples
  induction samples with
  | nil => intro st n2 _ _; exact ⟨n2, rfl⟩
  | cons s rest ih =>
    intro st n2 hpw hdf
    obtain ⟨hpw1, hpw2⟩ := List.pairwise_cons.mp hpw
    have hfp : fsLookup (trainFold media_dir enc (trainStep media_dir enc st s)
          rest).fs (fpOf media_dir s)
        = fsLookup st.fs (fpOf media_dir s) := by
      refine (trainFold_fs_untouched media_dir enc rest
          (trainStep media_dir enc st s) (fpOf media_dir s)
          (fun x hx => Ne.symm
            (hdf x (List.mem_cons_of_mem s hx) s (List.mem_cons_self s rest)))).trans
        (trainStep_fs_untouched media_dir enc st s (fpOf media_dir s)
          (Ne.symm (hdf s (List.mem_cons_self s rest) s (List.mem_cons_self s rest))))
    have hep : fsLookup (trainFold media_dir enc (trainStep media_dir enc st s)
          rest).fs (epOf media_dir s)
        = fsLookup (trainStep media_dir enc st s).fs (epOf media_dir s) :=
      trainFold_fs_untouched media_dir enc rest (trainStep media_dir enc st s)
        (epOf media_dir s) (fun x hx => hpw1 x hx)
    obtain ⟨k1, hk1⟩ := trainStep_replay media_dir enc st s
      (trainFold media_dir enc (trainStep media_dir enc st s) rest).fs n2 hfp hep
    obtain ⟨k2, hk2⟩ := ih (trainStep media_dir enc st s) k1 hpw2
      (fun a ha c hc =>
        hdf a (List.mem_cons_of_mem s ha) c (List.mem_cons_of_mem s hc))
    refine ⟨k2, ?_⟩
    show trainFold media_dir enc (trainStep media_dir enc
        { fs := (trainFold media_dir enc (trainStep media_dir enc st s) rest).fs,
          refs := st.refs, embedCalls := n2 } s) rest = _
    rw [hk1]
    exact hk2

/-- A resemblyzer stub whose embedding backend always raises. -/
def encFail : Resemblyzer :=
  { preprocess_file := Except.ok,
    preprocess_floats := fun w _ => Except.ok w,
    embed_utterance := fun _ => Except.error PyExc.other }

/-- Voice sample whose audio file `a.mp3` is missing; its derived cache
path collides with that of [sampleColl2]. -/
def sampleColl1 : VoiceSample :=
  { user := "u1", media_content_id := mediaSourceLocalMarker ++ "a.mp3" }

/-- Voice sample whose audio file `a.wav` exists; its derived cache path
`a_embedding.npy` collides with that of [sampleColl1]. -/
def sampleColl2 : VoiceSample :=
  { user := "u2", media_content_id := mediaSourceLocalMarker ++ "a.wav" }

/-- Engine configured with the two colliding samples. -/
def engineColl : SpeakerRecognition :=
  SpeakerRecognition.init [sampleColl1, sampleColl2]

/-- File system for the collision scenario: only `a.wav` exists. -/
def fsColl : FS := [("/config/media/a.wav", FileData.audio [1])]

/-- C7 counterexample. First failure: a train call with an empty sample
list keeps the prior non-empty reference mapping (the claim demands a
mapping derived solely from the current samples, which would be empty).
Second failure: train is not idempotent when a sample skipped for a
missing audio file shares its derived cache path with a later sample —
the second identical train call enrolls `u1` from the cache artifact the
first call wrote for `u2`, yielding a different engine state. -/
theorem claim_C7_counterexample :
    ((async_train ("/config/media") encId
        { voice_samples := [], trained := false,
          reference_embeddings := [("stale", [1])] }
        []).1.reference_embeddings = [("stale", [1])]
      ∧ [("stale", [(1 : ℚ)])] ≠ ([] : List (String × List ℚ)))
    ∧ (async_train ("/config/media") encId
          (async_train ("/config/media") encId engineColl fsColl).1
          (async_train ("/config/media") encId engineColl fsColl).2.1).1
        ≠ (async_train ("/config/media") encId engineColl fsColl).1 := by
  decide

/-- C7 (amended): the mapping `_train_sync` rebuilds is independent of
the prior `_trained` flag and reference mapping (no incremental merge); a
train call with an empty sample list only clears `_trained`, leaving the
prior mapping in place; and train is idempotent — the second identical
call reproduces the same engine and file system — provided the samples'
derived cache paths are pairwise distinct and distinct from the samples'
audio paths. -/
theorem claim_C7 (media_dir : String) (enc : Resemblyzer)
    (e : SpeakerRecognition) (fs : FS) (b : Bool)
    (r2 : List (String × List ℚ)) :
    _train_sync media_dir enc
        { e with trained := b, reference_embeddings := r2 } fs
      = _train_sync media_dir enc e fs
    ∧ (e.voice_samples = [] →
        async_train media_dir enc e fs = ({ e with trained := false }, fs, 0))
    ∧ (e.voice_samples.Pairwise
          (fun a c => epOf media_dir a ≠ epOf media_dir c) →
        (∀ a ∈ e.voice_samples, ∀ c ∈ e.voice_samples,
          epOf media_dir a ≠ fpOf media_dir c) →
        ∃ k, async_train media_dir enc (async_train media_dir enc e fs).1
            (async_train media_dir enc e fs).2.1
          = ((async_train media_dir enc e fs).1,
              (async_train media_dir enc e fs).2.1, k)) := by
  refine ⟨rfl, ?_, ?_⟩
  · intro h
    simp [async_train, h]
  · intro hpw hdf
    cases hs : e.voice_samples.isEmpty
    case true =>
      refine ⟨0, ?_⟩
      have he : e.voice_samples = [] := List.isEmpty_iff.mp hs
      simp [async_train, he]
    case false =>
      obtain ⟨k, hk⟩ := trainFold_replay media_dir enc e.voice_samples
        { fs := fs, refs := [], embedCalls := 0 } 0 hpw hdf
      refine ⟨k, ?_⟩
      simp only [async_train, hs, Bool.false_eq_true, if_false, _train_sync]
      rw [show ({ fs := fs, refs := [], embedCalls := 0 } : TrainState).refs
          = [] from rfl] at hk
      rw [hk]

/-- C7 witness: on the partial-enrollment scenario, whose derived cache
paths are pairwise distinct and disjoint from the audio paths, training a
second time reproduces the engine and file system of the first call. -/
theorem claim_C7_witness :
    ∃ k, async_train ("/config/media") encId
        (async_train ("/config/media") encId engineP3 fsP3).1
        (async_train ("/config/media") encId engineP3 fsP3).2.1
      = ((async_train ("/config/media") encId engineP3 fsP3).1,
          (async_train ("/config/media") encId engineP3 fsP3).2.1, k) :=
  (claim_C7 ("/config/media") encId engineP3 fsP3 false []).2.2
    (by decide) (by decide)

/-- C8 counterexample: when the embedding backend raises, nothing is
cached and enrolling the same sample twice invokes the backend twice,
refuting the claim's unconditional "at most once". -/
theorem claim_C8_counterexample :
    (trainStep ("/config/media") encFail
        (trainStep ("/config/media") encFail
          { fs := [("/config/media/alice.wav", FileData.audio [1])],
            refs := [], embedCalls := 0 } sampleAlice)
        sampleAlice).embedCalls = 2 := by
  decide

/-- C8 (amended): a sample whose derived cache path holds a loadable
artifact is enrolled from the cached vector without invoking the backend;
with no cached artifact and a readable audio file, a successful backend
invocation computes the embedding and stores it at the derived path; and
enrolling the same sample twice invokes the backend at most once provided
the backend's embed invocation does not raise (a failed invocation stores
nothing and the backend is invoked again on the next enrollment). -/
theorem claim_C8 :
    (∀ (media_dir : String) (enc : Resemblyzer) (st : TrainState)
        (s : VoiceSample) (v : List ℚ),
      charsStartWith s.media_content_id.data mediaSourceLocalMarker.data = true →
      fsLookup st.fs (epOf media_dir s) = some (FileData.npyVec v) →
      trainStep media_dir enc st s = { st with refs := dictInsert s.user v st.refs })
    ∧ (∀ (media_dir : String) (enc : Resemblyzer) (st : TrainState)
        (s : VoiceSample) (w wav emb : List ℚ),
      charsStartWith s.media_content_id.data mediaSourceLocalMarker.data = true →
      fsLookup st.fs (epOf media_dir s) = none →
      fsLookup st.fs (fpOf media_dir s) = some (FileData.audio w) →
      enc.preprocess_file w = Except.ok wav →
      enc.embed_utterance wav = Except.ok emb →
      trainStep media_dir enc st s
        = { fs := fsPut st.fs (epOf media_dir s) (FileData.npyVec emb),
            refs := dictInsert s.user emb st.refs,
            embedCalls := st.embedCalls + 1 })
    ∧ (∀ (media_dir : String) (enc : Resemblyzer) (st : TrainState)
        (s : VoiceSample),
      (∀ w, ∃ r, enc.embed_utterance w = Except.ok r) →
      (trainStep media_dir enc (trainStep media_dir enc st s) s).embedCalls
        ≤ st.embedCalls + 1) := by
  refine ⟨?_, ?_, ?_⟩
  · intro media_dir enc st s v hm hct
    simp [trainStep, hm, hct]
  · intro media_dir enc st s w wav emb hm hct hft hpre hemb
    simp [trainStep, hm, hct, hft, hpre, hemb]
  · intro media_dir enc st s hE
    cases hm : charsStartWith s.media_content_id.data mediaSourceLocalMarker.data
    case false =>
      have h1 : trainStep media_dir enc st s = st := by simp [trainStep, hm]
      rw [h1, h1]
      exact Nat.le_succ _
    case true =>
      cases hct : fsLookup st.fs (epOf media_dir s) with
      | some d =>
        cases d with
        | npyVec v =>
          have h1 : trainStep media_dir enc st s
              = { st with refs := dictInsert s.user v st.refs } := by
            simp [trainStep, hm, hct]
          rw [h1]
          have h2 : trainStep media_dir enc
              { st with refs := dictInsert s.user v st.refs } s
              = { st with refs :=
                    dictInsert s.user v (dictInsert s.user v st.refs) } := by
            simp [trainStep, hm, hct]
          rw [h2]
          exact Nat.le_succ _
        | audio w =>
          have h1 : trainStep media_dir enc st s = st := by
            simp [trainStep, hm, hct]
          rw [h1, h1]
          exact Nat.le_succ _
        | corrupt =>
          have h1 : trainStep media_dir enc st s = st := by
            simp [trainStep, hm, hct]
          rw [h1, h1]
          exact Nat.le_succ _
      | none =>
        cases hft : fsLookup st.fs (fpOf media_dir s) with
        | none =>
          have h1 : trainStep media_dir enc st s = st := by
            simp [trainStep, hm, hct, hft]
          rw [h1, h1]
          exact Nat.le_succ _
        | some fd =>
          cases fd with
          | npyVec v =>
            have h1 : trainStep media_dir enc st s = st := by
              simp [trainStep, hm, hct, hft]
            rw [h1, h1]
            exact Nat.le_succ _
          | corrupt =>
            have h1 : trainStep media_dir enc st s = st := by
              simp [trainStep, hm, hct, hft]
            rw [h1, h1]
            exact Nat.le_succ _
          | audio w =>
            cases hpre : enc.preprocess_file w with
            | error ex =>
              have h1 : trainStep media_dir enc st s = st := by
                simp [trainStep, hm, hct, hft, hpre]
              rw [h1, h1]
              exact Nat.le_succ _
            | ok wav =>
              obtain ⟨emb, hemb⟩ := hE wav
              have h1 : trainStep media_dir enc st s
                  = { fs := fsPut st.fs (epOf media_dir s) (FileData.npyVec emb),
                      refs := dictInsert s.user emb st.refs,
                      embedCalls := st.embedCalls + 1 } := by
                simp [trainStep, hm, hct, hft, hpre, hemb]
              rw [h1]
              have h2 : trainStep media_dir enc
                  { fs := fsPut st.fs (epOf media_dir s) (FileData.npyVec emb),
                    refs := dictInsert s.user emb st.refs,
                    embedCalls := st.embedCalls + 1 } s
                  = { fs := fsPut st.fs (epOf media_dir s) (FileData.npyVec emb),
                      refs := dictInsert s.user emb
                        (dictInsert s.user emb st.refs),
                      embedCalls := st.embedCalls + 1 } := by
                simp [trainStep, hm, fsLookup_fsPut]
              rw [h2]

/-- C8 witness: on the partial-enrollment scenario with a succeeding
backend, enrolling alice's sample twice in a row invokes the backend at
most once. -/
theorem claim_C8_witness :
    (trainStep ("/config/media") encId
        (trainStep ("/config/media") encId
          { fs := fsP3, refs := [], embedCalls := 0 } sampleAlice)
        sampleAlice).embedCalls ≤ 0 + 1 :=
  claim_C8.2.2 ("/config/media") encId
    { fs := fsP3, refs := [], embedCalls := 0 } sampleAlice
    (fun w => ⟨w, rfl⟩)

example : embedding_path ("/config/media/speaker1.mp3")
    = "/config/media/speaker1_embedding.npy" := by decide

example : embedding_path ("/m/a.") = "/m/a._embedding.npy" := by decide

example : embedding_path ("/m/a..mp3") = "/m/a._embedding.npy" := by decide

example : embedding_path ("/m/.hidden") = "/m/.hidden_embedding.npy" := by decide

example : fpOf ("/config/media")
    { user := "u", media_content_id := mediaSourceLocalMarker ++ "/etc/x.wav" }
    = "/etc/x.wav" := by decide

example : fpOf ("/config/media")
    { user := "u",
      media_content_id := mediaSourceLocalMarker ++ mediaSourceLocalMarker
        ++ "x.wav" }
    = "/config/media/x.wav" := by decide

example : fpOf ("/config/media")
    { user := "u", media_content_id := mediaSourceLocalMarker ++ ".//a//b.wav" }
    = "/config/media/a/b.wav" := by decide

example : charsStartWith ("media-source://media_source/local/a.wav").data
    mediaSourceLocalMarker.data = true := by decide
